import Mathlib

set_option linter.unusedVariables false

/-!
Shallow embedding of librdf's `src/librdf/rdf_stream.c`.

The C code wraps three producer-supplied callbacks (`end_of_stream`,
`next_statement`, `finished`) plus an optional map function into a lazy
stream of statements.  The producer context is an opaque mutable pointer;
we model it as an explicit state value of type `σ` threaded through the
callbacks, so `end_of_stream : σ → Bool × σ` and
`next_statement : σ → Option τ × σ` (a NULL statement is `none`).  The
map context (`void*`) is a value of type `μ`, and the map function
`librdf_statement* map(void*, librdf_statement*)` is `μ → τ → Option τ`.

The `while` loop in `librdf_stream_get_next_mapped_statement` need not
terminate for arbitrary callbacks, so it takes a fuel argument; returning
`none` at fuel exhaustion marks a run that was cut short (theorems supply
enough fuel).  Public operations that call the loop inherit the fuel and
the outer `Option`.

Destruction (`librdf_free_stream`) performs external effects (calling the
producer's `finished`, freeing the buffered statement, freeing the
struct); we model it as the list of effects it performs, in order.
-/

/-- The `librdf_stream` struct from rdf_stream.h / rdf_stream.c: opaque
producer context, the three producer callbacks, the optional map function
with its context, the single-statement lookahead slot `next`, and the
sticky `is_end_stream` flag (a C int used as a boolean). -/
structure LibrdfStream (σ μ τ : Type) where
  context : σ
  end_of_stream : σ → Bool × σ
  next_statement : σ → Option τ × σ
  finished : σ → Unit
  map : Option (μ → τ → Option τ)
  map_context : μ
  next : Option τ
  is_end_stream : Bool

/-- `librdf_new_stream` (rdf_stream.c lines 57-81): allocates the stream
(we model allocation as succeeding; on failure the C returns NULL before
touching any state), stores the context and the three callbacks, and
leaves the calloc-zeroed fields: no map, no map context (`default`
stands for the zeroed pointer), empty lookahead slot, flag clear.  The
unused `librdf_world*` argument is a `Unit`. -/
def librdf_new_stream {σ μ τ : Type} [Inhabited μ] (world : Unit) (context : σ)
    (end_of_stream : σ → Bool × σ) (next_statement : σ → Option τ × σ)
    (finished : σ → Unit) : LibrdfStream σ μ τ :=
  { context := context
    end_of_stream := end_of_stream
    next_statement := next_statement
    finished := finished
    map := none
    map_context := default
    next := none
    is_end_stream := false }

/-- One external effect performed by `librdf_free_stream`: calling the
producer's `finished` callback on the context, freeing a statement with
`librdf_free_statement`, or freeing the stream struct itself. -/
inductive FreeAction (σ τ : Type) where
  | callFinished : σ → FreeAction σ τ
  | freeStatement : τ → FreeAction σ τ
  | freeStreamSelf : FreeAction σ τ

/-- Whether a `FreeAction` is an invocation of the producer's `finished`
callback. -/
def FreeAction.isFinishedCall {σ τ : Type} : FreeAction σ τ → Bool
  | FreeAction.callFinished _ => true
  | _ => false

/-- `librdf_free_stream` (rdf_stream.c lines 88-96), as the ordered list
of effects it performs: it unconditionally calls `finished(context)`
once, then frees the lookahead statement if the slot is occupied, then
frees the stream struct. -/
def librdf_free_stream {σ μ τ : Type} (stream : LibrdfStream σ μ τ) :
    List (FreeAction σ τ) :=
  FreeAction.callFinished stream.context ::
    ((match stream.next with
      | some statement => [FreeAction.freeStatement statement]
      | none => []) ++ [FreeAction.freeStreamSelf])

/-- `librdf_stream_get_next_mapped_statement` (rdf_stream.c lines
108-126): while the producer is not exhausted, pull the next raw
statement (stop with `none` if the producer yields NULL), apply the map,
and stop with the first statement the map accepts.  The C helper takes
the stream and reads `end_of_stream`, `next_statement`, `map` and
`map_context` from it, mutating only the producer context; we pass those
four fields explicitly and thread the context.  The loop takes fuel; the
outer `none` marks fuel exhaustion (the C loop simply keeps running). -/
def librdf_stream_get_next_mapped_statement {σ μ τ : Type}
    (end_of_stream : σ → Bool × σ) (next_statement : σ → Option τ × σ)
    (m : μ → τ → Option τ) (map_context : μ) :
    Nat → σ → Option (Option τ × σ)
  | 0, _ => none
  | fuel + 1, context =>
    let e := end_of_stream context
    if e.1 then some (none, e.2)
    else
      let r := next_statement e.2
      match r.1 with
      | none => some (none, r.2)
      | some statement =>
        match m map_context statement with
        | some mapped => some (some mapped, r.2)
        | none =>
          librdf_stream_get_next_mapped_statement end_of_stream next_statement
            m map_context fuel r.2

/-- `librdf_stream_next` (rdf_stream.c lines 138-165): NULL once the
ended flag is set; with no map installed, delegate straight to the
producer's `next_statement`; with a map, return and clear the buffered
lookahead statement if present, otherwise run the mapped-fetch loop,
latching the ended flag when it yields nothing. -/
def librdf_stream_next {σ μ τ : Type} (fuel : Nat) (stream : LibrdfStream σ μ τ) :
    Option (Option τ × LibrdfStream σ μ τ) :=
  if stream.is_end_stream then some (none, stream)
  else
    match stream.map with
    | none =>
      let r := stream.next_statement stream.context
      some (r.1, { stream with context := r.2 })
    | some m =>
      match stream.next with
      | some statement => some (some statement, { stream with next := none })
      | none =>
        match librdf_stream_get_next_mapped_statement stream.end_of_stream
            stream.next_statement m stream.map_context fuel stream.context with
        | none => none
        | some (some statement, c') =>
          some (some statement, { stream with context := c' })
        | some (none, c') =>
          some (none, { stream with context := c', is_end_stream := true })

/-- `librdf_stream_end` (rdf_stream.c lines 174-201): a NULL stream is
always at end; a stream with the ended flag set is at end; with no map,
delegate to the producer's `end_of_stream` and store its answer in the
flag; with a map, a buffered lookahead statement means not-at-end,
otherwise run the mapped-fetch loop, buffer its result in the lookahead
slot, latch the flag if it found nothing, and return the flag. -/
def librdf_stream_end {σ μ τ : Type} (fuel : Nat)
    (stream? : Option (LibrdfStream σ μ τ)) :
    Option (Bool × Option (LibrdfStream σ μ τ)) :=
  match stream? with
  | none => some (true, none)
  | some stream =>
    if stream.is_end_stream then some (true, some stream)
    else
      match stream.map with
      | none =>
        let e := stream.end_of_stream stream.context
        some (e.1, some { stream with context := e.2, is_end_stream := e.1 })
      | some m =>
        match stream.next with
        | some _ => some (false, some stream)
        | none =>
          match librdf_stream_get_next_mapped_statement stream.end_of_stream
              stream.next_statement m stream.map_context fuel stream.context with
          | none => none
          | some (r, c') =>
            some (r.isNone, some { stream with context := c', next := r, is_end_stream := r.isNone })

/-- `librdf_stream_set_map` (rdf_stream.c lines 215-222): stores the map
function (a nullable pointer in C, hence `Option`) and the map context,
touching nothing else. -/
def librdf_stream_set_map {σ μ τ : Type} (stream : LibrdfStream σ μ τ)
    (m : Option (μ → τ → Option τ)) (map_context : μ) : LibrdfStream σ μ τ :=
  { stream with map := m, map_context := map_context }

/-!
Consumer-side driver: an interleaving of the public operations applied to
a stream, collecting the statements returned by the `next` calls.  This
is the harness the testable properties of the spec quantify over.
-/

/-- One public operation a consumer can apply to a stream: an
`librdf_stream_end` call, an `librdf_stream_next` call, or an
`librdf_stream_set_map` call with a given map and map context. -/
inductive StreamOp (μ τ : Type) where
  | endOp : StreamOp μ τ
  | nextOp : StreamOp μ τ
  | setMapOp : Option (μ → τ → Option τ) → μ → StreamOp μ τ

/-- Whether an operation is a `set_map` call. -/
def StreamOp.isSetMap {μ τ : Type} : StreamOp μ τ → Bool
  | StreamOp.setMapOp _ _ => true
  | _ => false

/-- Number of `next` calls in an operation sequence. -/
def numNextOps {μ τ : Type} : List (StreamOp μ τ) → Nat
  | [] => 0
  | StreamOp.nextOp :: rest => numNextOps rest + 1
  | _ :: rest => numNextOps rest

/-- Run a sequence of operations on a stream, collecting the results of
the `next` calls in order; `none` overall marks a run in which some
mapped-fetch loop ran out of fuel. -/
def librdf_run_ops {σ μ τ : Type} (fuel : Nat) :
    List (StreamOp μ τ) → LibrdfStream σ μ τ →
    Option (List (Option τ) × LibrdfStream σ μ τ)
  | [], stream => some ([], stream)
  | StreamOp.endOp :: rest, stream =>
    match librdf_stream_end fuel (some stream) with
    | some (_, some stream') => librdf_run_ops fuel rest stream'
    | _ => none
  | StreamOp.nextOp :: rest, stream =>
    match librdf_stream_next fuel stream with
    | some (r, stream') =>
      match librdf_run_ops fuel rest stream' with
      | some (outs, stream'') => some (r :: outs, stream'')
      | none => none
    | none => none
  | StreamOp.setMapOp m map_context :: rest, stream =>
    librdf_run_ops fuel rest (librdf_stream_set_map stream m map_context)

/-!
Specification-side list functions used to state what the stream code
computes, and the producer contract of the spec.
-/

/-- Specification of one round of the mapped-fetch loop on an element
list: the first element the map accepts (mapped), together with the
producer elements remaining after it; `(none, [])` when the map accepts
nothing. -/
def findAccepted {τ : Type} (f : τ → Option τ) : List τ → Option τ × List τ
  | [] => (none, [])
  | x :: rest =>
    match f x with
    | some y => (some y, rest)
    | none => findAccepted f rest

/-- Specification of the outputs of an operation sequence run against a
pending list of deliverable statements: each `next` call returns the head
of the pending list (or `none` when it is empty) and consumes it; `end`
and `set_map` calls return nothing and consume nothing. -/
def specOutputs {μ τ : Type} : List τ → List (StreamOp μ τ) → List (Option τ)
  | _, [] => []
  | pending, StreamOp.nextOp :: rest =>
    pending.head? :: specOutputs pending.tail rest
  | pending, _ :: rest => specOutputs pending rest

/-- The producer contract from the spec, for a producer whose abstract
content is given by `elems`: `end_of_stream` answers whether the element
list is empty without changing it, and `next_statement` returns the head
(or `none` once exhausted, and forever after) and leaves the tail. -/
structure IsListLike {σ τ : Type} (end_of_stream : σ → Bool × σ)
    (next_statement : σ → Option τ × σ) (elems : σ → List τ) : Prop where
  end_empty : ∀ c, (end_of_stream c).1 = (elems c).isEmpty
  end_elems : ∀ c, elems (end_of_stream c).2 = elems c
  next_head : ∀ c, (next_statement c).1 = (elems c).head?
  next_tail : ∀ c, elems (next_statement c).2 = (elems c).tail

/-- The statements still deliverable from a stream state: the buffered
lookahead statement, if any, followed by the producer's remaining
elements filtered through the installed map (all of them when no map is
installed). -/
def streamPending {σ μ τ : Type} (elems : σ → List τ)
    (stream : LibrdfStream σ μ τ) : List τ :=
  stream.next.toList ++
    (match stream.map with
     | none => elems stream.context
     | some m => (elems stream.context).filterMap (m stream.map_context))

/-- State invariant maintained by the stream operations over a
contract-obeying producer: once the ended flag is set the lookahead slot
is empty and the producer is exhausted, and with no map installed the
lookahead slot is never used. -/
def StreamInv {σ μ τ : Type} (elems : σ → List τ)
    (stream : LibrdfStream σ μ τ) : Prop :=
  (stream.is_end_stream = true → stream.next = none ∧ elems stream.context = []) ∧
  (stream.map = none → stream.next = none)

/-!
The node-iterator adapter (rdf_stream.c lines 226-335).  Its
collaborators live outside src/: the `librdf_iterator` type and its
operations (rdf_iterator.c), the `librdf_statement` type with its clone
and field setters (rdf_statement.c), and the statement-field constants
(rdf_statement.h).  Those are modelled from the spec below; the adapter
functions themselves are translated from the source.
-/

/-- Modelled from the spec: a statement is an ordered triple of node
references (subject, predicate, object), one position possibly a
placeholder (absent) in the adapter's prototype.  The concrete
`librdf_statement` type lives in rdf_statement.c, outside src/. -/
structure librdf_statement (ν : Type) where
  subject : Option ν
  predicate : Option ν
  object : Option ν

/-- Modelled from the spec: `librdf_statement_set_subject` stores the
node in the statement's subject position (rdf_statement.c, outside
src/). -/
def librdf_statement_set_subject {ν : Type} (statement : librdf_statement ν)
    (node : ν) : librdf_statement ν :=
  { statement with subject := some node }

/-- Modelled from the spec: `librdf_statement_set_predicate` stores the
node in the statement's predicate position (rdf_statement.c, outside
src/). -/
def librdf_statement_set_predicate {ν : Type} (statement : librdf_statement ν)
    (node : ν) : librdf_statement ν :=
  { statement with predicate := some node }

/-- Modelled from the spec: `librdf_statement_set_object` stores the
node in the statement's object position (rdf_statement.c, outside
src/). -/
def librdf_statement_set_object {ν : Type} (statement : librdf_statement ν)
    (node : ν) : librdf_statement ν :=
  { statement with object := some node }

/-- Modelled from the spec: the statement-field selector constants from
rdf_statement.h (outside src/); three distinct values naming the
subject, predicate and object positions. -/
def LIBRDF_STATEMENT_SUBJECT : Nat := 0

/-- Modelled from the spec: the predicate field selector constant. -/
def LIBRDF_STATEMENT_PREDICATE : Nat := 1

/-- Modelled from the spec: the object field selector constant. -/
def LIBRDF_STATEMENT_OBJECT : Nat := 2

/-- Modelled from the spec: `librdf_iterator_have_elements` of the
external iterator abstraction (rdf_iterator.c, outside src/), over an
iterator modelled as the list of nodes it has yet to yield. -/
def librdf_iterator_have_elements {ν : Type} (iterator : List ν) : Bool :=
  !iterator.isEmpty

/-- Modelled from the spec: `librdf_iterator_get_next` of the external
iterator abstraction (rdf_iterator.c, outside src/): yields the next
node and advances, or yields `none` once exhausted. -/
def librdf_iterator_get_next {ν : Type} (iterator : List ν) :
    Option ν × List ν :=
  match iterator with
  | [] => (none, [])
  | node :: rest => (some node, rest)

/-- The `librdf_stream_from_node_iterator_stream_context` struct
(rdf_stream.c lines 230-234): the wrapped iterator (modelled by its
remaining nodes), the prototype statement, and the field selector. -/
structure librdf_stream_from_node_iterator_stream_context (ν : Type) where
  iterator : List ν
  statement : librdf_statement ν
  field : Nat

/-- `librdf_new_stream_from_node_iterator` (rdf_stream.c lines 251-278),
restricted to building the adapter context it registers as the producer
context (allocation is modelled as succeeding; the surrounding
`librdf_new_stream` call stores the three adapter callbacks unchanged).
Note that the field selector is stored without any validation. -/
def librdf_new_stream_from_node_iterator {ν : Type} (iterator : List ν)
    (statement : librdf_statement ν) (field : Nat) :
    librdf_stream_from_node_iterator_stream_context ν :=
  { iterator := iterator, statement := statement, field := field }

/-- `librdf_stream_from_node_iterator_end_of_stream` (rdf_stream.c lines
281-287): end of stream exactly when the wrapped iterator has no more
elements; reads but does not advance the iterator. -/
def librdf_stream_from_node_iterator_end_of_stream {ν : Type}
    (scontext : librdf_stream_from_node_iterator_stream_context ν) :
    Bool × librdf_stream_from_node_iterator_stream_context ν :=
  (!librdf_iterator_have_elements scontext.iterator, scontext)

/-- Result of one call to the adapter's next-statement callback: either
a normal return (the statement or NULL, together with the nodes the call
released with `librdf_free_node`), or the fatal non-returning abort
`LIBRDF_FATAL2` with the offending field selector. -/
inductive AdapterStep (ν : Type) where
  | ret : Option (librdf_statement ν) → List ν → AdapterStep ν
  | fatal : Nat → AdapterStep ν

/-- Whether an adapter step took the fatal abort path. -/
def AdapterStep.isFatal {ν : Type} : AdapterStep ν → Bool
  | AdapterStep.fatal _ => true
  | _ => false

/-- `librdf_stream_from_node_iterator_next_statement` (rdf_stream.c
lines 290-323): pull the next node from the iterator (NULL when
exhausted); clone the prototype with
`librdf_new_statement_from_statement` — an external, fallible allocation
from rdf_statement.c (outside src/), modelled from the spec as the
`clone` parameter — releasing the pulled node and returning NULL when the
clone fails; otherwise set the designated field of the clone to the node,
aborting via `LIBRDF_FATAL2` on an illegal field selector. -/
def librdf_stream_from_node_iterator_next_statement {ν : Type}
    (clone : librdf_statement ν → Option (librdf_statement ν))
    (scontext : librdf_stream_from_node_iterator_stream_context ν) :
    AdapterStep ν × librdf_stream_from_node_iterator_stream_context ν :=
  let r := librdf_iterator_get_next scontext.iterator
  match r.1 with
  | none => (AdapterStep.ret none [], { scontext with iterator := r.2 })
  | some node =>
    match clone scontext.statement with
    | none => (AdapterStep.ret none [node], { scontext with iterator := r.2 })
    | some statement =>
      if scontext.field = LIBRDF_STATEMENT_SUBJECT then
        (AdapterStep.ret (some (librdf_statement_set_subject statement node)) [],
          { scontext with iterator := r.2 })
      else if scontext.field = LIBRDF_STATEMENT_PREDICATE then
        (AdapterStep.ret (some (librdf_statement_set_predicate statement node)) [],
          { scontext with iterator := r.2 })
      else if scontext.field = LIBRDF_STATEMENT_OBJECT then
        (AdapterStep.ret (some (librdf_statement_set_object statement node)) [],
          { scontext with iterator := r.2 })
      else
        (AdapterStep.fatal scontext.field, { scontext with iterator := r.2 })

/-- Drive the adapter's next-statement callback a given number of times,
collecting the step results in order. -/
def adapterDrain {ν : Type}
    (clone : librdf_statement ν → Option (librdf_statement ν)) :
    librdf_stream_from_node_iterator_stream_context ν → Nat →
    List (AdapterStep ν)
  | _, 0 => []
  | scontext, k + 1 =>
    let r := librdf_stream_from_node_iterator_next_statement clone scontext
    r.1 :: adapterDrain clone r.2 k

/-- The clone's designated field set per the adapter switch: the helper
used to state the adapter theorems uniformly over the three legal field
selectors. -/
def statementWithField {ν : Type} (field : Nat)
    (statement : librdf_statement ν) (node : ν) : librdf_statement ν :=
  if field = LIBRDF_STATEMENT_SUBJECT then
    librdf_statement_set_subject statement node
  else if field = LIBRDF_STATEMENT_PREDICATE then
    librdf_statement_set_predicate statement node
  else if field = LIBRDF_STATEMENT_OBJECT then
    librdf_statement_set_object statement node
  else statement

/-!
Lemmas about the specification-side list functions.
-/

theorem findAccepted_fst {τ : Type} (f : τ → Option τ) (l : List τ) :
    (findAccepted f l).1 = (l.filterMap f).head? := by
  induction l with
  | nil => rfl
  | cons x rest ih =>
    cases h : f x with
    | none => simp [findAccepted, h, List.filterMap_cons, ih]
    | some y => simp [findAccepted, h, List.filterMap_cons]

theorem findAccepted_snd_filterMap {τ : Type} (f : τ → Option τ) (l : List τ) :
    ((findAccepted f l).2).filterMap f = (l.filterMap f).tail := by
  induction l with
  | nil => rfl
  | cons x rest ih =>
    cases h : f x with
    | none => simp [findAccepted, h, List.filterMap_cons, ih]
    | some y => simp [findAccepted, h, List.filterMap_cons]

theorem findAccepted_none_snd {τ : Type} (f : τ → Option τ) (l : List τ)
    (h : (findAccepted f l).1 = none) : (findAccepted f l).2 = [] := by
  induction l with
  | nil => rfl
  | cons x rest ih =>
    cases hx : f x with
    | none =>
      rw [findAccepted, hx] at h ⊢
      exact ih h
    | some y => rw [findAccepted, hx] at h; simp at h

theorem findAccepted_snd_length {τ : Type} (f : τ → Option τ) (l : List τ) :
    ((findAccepted f l).2).length ≤ l.length := by
  induction l with
  | nil => simp [findAccepted]
  | cons x rest ih =>
    cases hx : f x with
    | none =>
      rw [findAccepted, hx]
      exact le_trans ih (by simp)
    | some y => rw [findAccepted, hx]; simp

theorem specOutputs_closed {μ τ : Type} (ops : List (StreamOp μ τ)) :
    ∀ pending : List τ,
      specOutputs pending ops
        = ((pending.take (numNextOps ops)).map some)
          ++ List.replicate (numNextOps ops - pending.length) none := by
  induction ops with
  | nil => intro pending; simp [specOutputs, numNextOps]
  | cons op rest ih =>
    intro pending
    cases op with
    | endOp => simpa [specOutputs, numNextOps] using ih pending
    | setMapOp m mc => simpa [specOutputs, numNextOps] using ih pending
    | nextOp =>
      cases pending with
      | nil =>
        simp [specOutputs, numNextOps, ih, List.replicate_succ]
      | cons p ps =>
        simp [specOutputs, numNextOps, ih, List.take_succ_cons]

/-!
Correctness of the mapped-fetch loop over a contract-obeying producer.
-/

theorem mapped_loop_spec {σ μ τ : Type} {end_of_stream : σ → Bool × σ}
    {next_statement : σ → Option τ × σ} {elems : σ → List τ}
    (hP : IsListLike end_of_stream next_statement elems)
    (m : μ → τ → Option τ) (mc : μ) :
    ∀ (F : Nat) (c : σ), (elems c).length + 1 ≤ F →
      ∃ c', librdf_stream_get_next_mapped_statement end_of_stream next_statement
              m mc F c
            = some ((findAccepted (m mc) (elems c)).1, c')
        ∧ elems c' = (findAccepted (m mc) (elems c)).2 := by
  intro F
  induction F with
  | zero => intro c hc; omega
  | succ k ih =>
    intro c hc
    cases h : elems c with
    | nil =>
      have he : (end_of_stream c).1 = true := by rw [hP.end_empty, h]; rfl
      refine ⟨(end_of_stream c).2, ?_, ?_⟩
      · simp [librdf_stream_get_next_mapped_statement, he, findAccepted]
      · rw [hP.end_elems, h]; rfl
    | cons x rest =>
      have he : (end_of_stream c).1 = false := by rw [hP.end_empty, h]; rfl
      have hh : (next_statement (end_of_stream c).2).1 = some x := by
        rw [hP.next_head, hP.end_elems, h]; rfl
      have ht : elems (next_statement (end_of_stream c).2).2 = rest := by
        rw [hP.next_tail, hP.end_elems, h]; rfl
      cases hm : m mc x with
      | some y =>
        refine ⟨(next_statement (end_of_stream c).2).2, ?_, ?_⟩
        · simp [librdf_stream_get_next_mapped_statement, he, hh, hm, findAccepted]
        · rw [ht]; simp [findAccepted, hm]
      | none =>
        have hk : (elems (next_statement (end_of_stream c).2).2).length + 1 ≤ k := by
          rw [ht]
          rw [h] at hc
          simpa using Nat.le_of_succ_le_succ (by simpa using hc)
        obtain ⟨c', h1, h2⟩ := ih (next_statement (end_of_stream c).2).2 hk
        refine ⟨c', ?_, ?_⟩
        · simp only [librdf_stream_get_next_mapped_statement, he, hh, hm]
          simp only [Bool.false_eq_true, if_false]
          rw [h1, ht]
          simp [findAccepted, hm]
        · rw [h2, ht]
          simp [findAccepted, hm]


/-!
Single-step correctness of `end` and `next` over a contract-obeying
producer: both preserve the invariant and the pending list, except that
`next` consumes and returns its head.
-/

theorem end_step_spec {σ μ τ : Type} {elems : σ → List τ} (F : Nat)
    (s : LibrdfStream σ μ τ)
    (hP : IsListLike s.end_of_stream s.next_statement elems)
    (hInv : StreamInv elems s)
    (hF : (elems s.context).length + 1 ≤ F) :
    ∃ b s', librdf_stream_end F (some s) = some (b, some s')
      ∧ s'.end_of_stream = s.end_of_stream
      ∧ s'.next_statement = s.next_statement
      ∧ s'.map = s.map ∧ s'.map_context = s.map_context
      ∧ StreamInv elems s'
      ∧ streamPending elems s' = streamPending elems s
      ∧ (elems s'.context).length ≤ (elems s.context).length := by
  cases hend : s.is_end_stream with
  | true =>
    exact ⟨true, s, by simp [librdf_stream_end, hend], rfl, rfl, rfl, rfl, hInv,
      rfl, le_refl _⟩
  | false =>
    cases hmap : s.map with
    | none =>
      have hn : s.next = none := hInv.2 hmap
      refine ⟨(s.end_of_stream s.context).1,
        { s with context := (s.end_of_stream s.context).2,
                 is_end_stream := (s.end_of_stream s.context).1 },
        by simp [librdf_stream_end, hend, hmap], rfl, rfl, hmap, rfl, ?_, ?_, ?_⟩
      · constructor
        · intro hE
          refine ⟨hn, ?_⟩
          have h1 : (elems s.context).isEmpty = true := by rw [← hP.end_empty]; exact hE
          rw [hP.end_elems]
          simpa [List.isEmpty_iff] using h1
        · intro _; exact hn
      · simp [streamPending, hmap, hP.end_elems]
      · simp [hP.end_elems]
    | some m =>
      cases hnext : s.next with
      | some st =>
        exact ⟨false, s, by simp [librdf_stream_end, hend, hmap, hnext],
          rfl, rfl, hmap, rfl, hInv, rfl, le_refl _⟩
      | none =>
        obtain ⟨c', hL, hE⟩ := mapped_loop_spec hP m s.map_context F s.context hF
        refine ⟨((findAccepted (m s.map_context) (elems s.context)).1).isNone,
          { s with context := c',
                   next := (findAccepted (m s.map_context) (elems s.context)).1,
                   is_end_stream :=
                     ((findAccepted (m s.map_context) (elems s.context)).1).isNone },
          by simp [librdf_stream_end, hend, hmap, hnext, hL], rfl, rfl, hmap, rfl,
          ?_, ?_, ?_⟩
        · cases hr : (findAccepted (m s.map_context) (elems s.context)).1 with
          | none =>
            constructor
            · intro _
              refine ⟨by simp [hr], ?_⟩
              simp only [hE]
              exact findAccepted_none_snd _ _ hr
            · intro habs; simp [hmap] at habs
          | some y =>
            constructor
            · intro habs; simp [hr] at habs
            · intro habs; simp [hmap] at habs
        · cases hr : (findAccepted (m s.map_context) (elems s.context)).1 with
          | none =>
            have hfm : (elems s.context).filterMap (m s.map_context) = [] := by
              have h1 := findAccepted_fst (m s.map_context) (elems s.context)
              rw [hr] at h1
              exact List.head?_eq_none_iff.mp h1.symm
            have h2 : (findAccepted (m s.map_context) (elems s.context)).2 = [] :=
              findAccepted_none_snd _ _ hr
            simp [streamPending, hmap, hnext, hr, hE, h2, hfm]
          | some y =>
            have hfm := findAccepted_fst (m s.map_context) (elems s.context)
            rw [hr] at hfm
            have hcons : y :: ((elems s.context).filterMap (m s.map_context)).tail
                = (elems s.context).filterMap (m s.map_context) :=
              List.cons_head?_tail hfm.symm
            have htail := findAccepted_snd_filterMap (m s.map_context) (elems s.context)
            simp only [streamPending, hmap, hnext, hr, hE, htail]
            simp [hcons]
        · rw [hE]
          exact findAccepted_snd_length _ _

theorem next_step_spec {σ μ τ : Type} {elems : σ → List τ} (F : Nat)
    (s : LibrdfStream σ μ τ)
    (hP : IsListLike s.end_of_stream s.next_statement elems)
    (hInv : StreamInv elems s)
    (hF : (elems s.context).length + 1 ≤ F) :
    ∃ s', librdf_stream_next F s = some ((streamPending elems s).head?, s')
      ∧ s'.end_of_stream = s.end_of_stream
      ∧ s'.next_statement = s.next_statement
      ∧ s'.map = s.map ∧ s'.map_context = s.map_context
      ∧ StreamInv elems s'
      ∧ streamPending elems s' = (streamPending elems s).tail
      ∧ (elems s'.context).length ≤ (elems s.context).length := by
  cases hend : s.is_end_stream with
  | true =>
    obtain ⟨hn, hc⟩ := hInv.1 hend
    have hpend : streamPending elems s = [] := by
      cases hmap : s.map with
      | none => simp [streamPending, hmap, hn, hc]
      | some m => simp [streamPending, hmap, hn, hc]
    exact ⟨s, by simp [librdf_stream_next, hend, hpend], rfl, rfl, rfl, rfl, hInv,
      by simp [hpend], le_refl _⟩
  | false =>
    cases hmap : s.map with
    | none =>
      have hn : s.next = none := hInv.2 hmap
      refine ⟨{ s with context := (s.next_statement s.context).2 },
        ?_, rfl, rfl, hmap, rfl, ?_, ?_, ?_⟩
      · simp [librdf_stream_next, hend, hmap, streamPending, hn, hP.next_head]
      · constructor
        · intro habs; simp [hend] at habs
        · intro _; exact hn
      · simp [streamPending, hmap, hn, hP.next_tail]
      · rw [hP.next_tail]; simp
    | some m =>
      cases hnext : s.next with
      | some st =>
        refine ⟨{ s with next := none },
          ?_, rfl, rfl, hmap, rfl, ?_, ?_, le_refl _⟩
        · simp [librdf_stream_next, hend, hmap, hnext, streamPending]
        · constructor
          · intro habs; simp [hend] at habs
          · intro habs; simp [hmap] at habs
        · simp [streamPending, hmap, hnext]
      | none =>
        obtain ⟨c', hL, hE⟩ := mapped_loop_spec hP m s.map_context F s.context hF
        cases hr : (findAccepted (m s.map_context) (elems s.context)).1 with
        | none =>
          have hfm : (elems s.context).filterMap (m s.map_context) = [] := by
            have h1 := findAccepted_fst (m s.map_context) (elems s.context)
            rw [hr] at h1
            exact List.head?_eq_none_iff.mp h1.symm
          have h2 : (findAccepted (m s.map_context) (elems s.context)).2 = [] :=
            findAccepted_none_snd _ _ hr
          rw [hr] at hL
          refine ⟨{ s with context := c', is_end_stream := true },
            ?_, rfl, rfl, hmap, rfl, ?_, ?_, ?_⟩
          · simp [librdf_stream_next, hend, hmap, hnext, hL, streamPending, hfm]
          · constructor
            · intro _; exact ⟨hnext, by rw [hE, h2]⟩
            · intro habs; simp [hmap] at habs
          · simp [streamPending, hmap, hnext, hE, h2, hfm]
          · rw [hE, h2]; simp
        | some y =>
          have hfm := findAccepted_fst (m s.map_context) (elems s.context)
          rw [hr] at hfm
          have htail := findAccepted_snd_filterMap (m s.map_context) (elems s.context)
          rw [hr] at hL
          refine ⟨{ s with context := c' },
            ?_, rfl, rfl, hmap, rfl, ?_, ?_, ?_⟩
          · simp [librdf_stream_next, hend, hmap, hnext, hL, streamPending, hfm.symm]
          · constructor
            · intro habs; simp [hend] at habs
            · intro habs; simp [hmap] at habs
          · simp [streamPending, hmap, hnext, hE, htail]
          · rw [hE]
            exact findAccepted_snd_length _ _

/-!
Correctness of an arbitrary interleaving of `end` and `next` calls over a
contract-obeying producer.
-/

theorem run_ops_spec {σ μ τ : Type} {elems : σ → List τ} (F : Nat) :
    ∀ ops : List (StreamOp μ τ), ops.all (fun op => !op.isSetMap) = true →
      ∀ s : LibrdfStream σ μ τ,
        IsListLike s.end_of_stream s.next_statement elems →
        StreamInv elems s →
        (elems s.context).length + 1 ≤ F →
        ∃ s', librdf_run_ops F ops s
            = some (specOutputs (streamPending elems s) ops, s') := by
  intro ops
  induction ops with
  | nil => intro _ s _ _ _; exact ⟨s, rfl⟩
  | cons op rest ih =>
    intro hall s hP hInv hF
    have hall2 := hall
    rw [List.all_cons, Bool.and_eq_true] at hall2
    cases op with
    | endOp =>
      obtain ⟨b, s', heq, heos, hnxt, hmapEq, hmc, hInv', hpend, hlen⟩ :=
        end_step_spec F s hP hInv hF
      have hP' : IsListLike s'.end_of_stream s'.next_statement elems := by
        rw [heos, hnxt]; exact hP
      obtain ⟨s'', hrun⟩ := ih hall2.2 s' hP' hInv' (by omega)
      refine ⟨s'', ?_⟩
      simp only [librdf_run_ops, heq]
      rw [hrun, hpend]
      rfl
    | nextOp =>
      obtain ⟨s', heq, heos, hnxt, hmapEq, hmc, hInv', hpend, hlen⟩ :=
        next_step_spec F s hP hInv hF
      have hP' : IsListLike s'.end_of_stream s'.next_statement elems := by
        rw [heos, hnxt]; exact hP
      obtain ⟨s'', hrun⟩ := ih hall2.2 s' hP' hInv' (by omega)
      refine ⟨s'', ?_⟩
      simp only [librdf_run_ops, heq]
      rw [hrun, hpend]
      rfl
    | setMapOp m mc =>
      simp [StreamOp.isSetMap] at hall2

/-- Claim C1: for every producer obeying the three-operation contract
(`IsListLike`: `end_test` true exactly at exhaustion and element
preserving, `next_fn` yields the head and is absent once and forever
after exhaustion) and every interleaving of `end` and `next` calls, the
statements returned by `next` are exactly the producer's elements the
map accepts (all of them when no map is installed), in producer order,
each returned exactly once, followed by `none` on every subsequent
`next` call: the outputs of the run are the first `k` accepted elements
(`k` = number of `next` calls) padded with `none` once the accepted
elements are exhausted. -/
theorem stream_interleavings_yield_accepted_elements
    {σ μ τ : Type} [Inhabited μ]
    (end_of_stream : σ → Bool × σ) (next_statement : σ → Option τ × σ)
    (finished : σ → Unit) (elems : σ → List τ)
    (hP : IsListLike end_of_stream next_statement elems)
    (c₀ : σ) (mo : Option (μ → τ → Option τ)) (mc : μ)
    (ops : List (StreamOp μ τ)) (hops : ops.all (fun op => !op.isSetMap) = true)
    (F : Nat) (hF : (elems c₀).length + 1 ≤ F)
    (s₀ : LibrdfStream σ μ τ)
    (hs₀ : s₀ = match mo with
      | none => librdf_new_stream () c₀ end_of_stream next_statement finished
      | some m => librdf_stream_set_map
          (librdf_new_stream () c₀ end_of_stream next_statement finished)
          (some m) mc)
    (accepted : List τ)
    (hacc : accepted = match mo with
      | none => elems c₀
      | some m => (elems c₀).filterMap (m mc)) :
    ∃ s', librdf_run_ops F ops s₀
      = some (((accepted.take (numNextOps ops)).map some)
              ++ List.replicate (numNextOps ops - accepted.length) none, s') := by
  subst hs₀ hacc
  cases mo with
  | none =>
    obtain ⟨s', hrun⟩ := run_ops_spec F ops hops
      (librdf_new_stream () c₀ end_of_stream next_statement finished)
      hP (by constructor <;> simp [librdf_new_stream]) hF
    refine ⟨s', ?_⟩
    rw [hrun, specOutputs_closed]
    simp [streamPending, librdf_new_stream]
  | some m =>
    obtain ⟨s', hrun⟩ := run_ops_spec F ops hops
      (librdf_stream_set_map
        (librdf_new_stream () c₀ end_of_stream next_statement finished)
        (some m) mc)
      hP (by constructor <;> simp [librdf_new_stream, librdf_stream_set_map]) hF
    refine ⟨s', ?_⟩
    rw [hrun, specOutputs_closed]
    simp [streamPending, librdf_new_stream, librdf_stream_set_map]

/-- Witness for claim C1: a four-element producer, a map keeping the even
elements, and the interleaving end, next, end, next, next yields the two
accepted elements in order followed by an absent result. -/
theorem stream_interleavings_witness :
    ∃ s', librdf_run_ops 5
        [StreamOp.endOp, StreamOp.nextOp, StreamOp.endOp, StreamOp.nextOp,
          StreamOp.nextOp]
        (librdf_stream_set_map
          (librdf_new_stream () [0, 1, 2, 3]
            (fun l => (l.isEmpty, l)) (fun l => (l.head?, l.tail)) (fun _ => ()))
          (some (fun _ x => if x % 2 = 0 then some x else none)) ())
      = some ([some 0, some 2, none], s') := by
  have h := stream_interleavings_yield_accepted_elements
    (fun l : List Nat => (l.isEmpty, l)) (fun l => (l.head?, l.tail))
    (fun _ => ()) (fun l => l)
    ⟨fun c => rfl, fun c => rfl, fun c => rfl, fun c => rfl⟩
    [0, 1, 2, 3] (some (fun _ x => if x % 2 = 0 then some x else none)) ()
    [StreamOp.endOp, StreamOp.nextOp, StreamOp.endOp, StreamOp.nextOp,
      StreamOp.nextOp]
    rfl 5 (by decide) _ rfl [0, 2] rfl
  simpa [numNextOps] using h

/-- Claim C2: over every producer and every sequence of `end`, `next`
and `set_map` operations, once the `is_end_stream` flag is set it is
never cleared by any subsequent operation, and the lookahead slot (an
optional single statement in the model, mirroring the single `next`
pointer of the struct) holds at most one statement at every point. -/
theorem stream_ended_flag_sticky_and_slot_bounded {σ μ τ : Type} :
    (∀ (F : Nat) (ops : List (StreamOp μ τ)) (s s' : LibrdfStream σ μ τ)
        (outs : List (Option τ)),
        librdf_run_ops F ops s = some (outs, s') →
        s.is_end_stream = true → s'.is_end_stream = true)
    ∧ ∀ s : LibrdfStream σ μ τ, s.next.toList.length ≤ 1 := by
  constructor
  · intro F ops
    induction ops with
    | nil =>
      intro s s' outs h hend
      simp [librdf_run_ops] at h
      rw [← h.2]
      exact hend
    | cons op rest ih =>
      intro s s' outs h hend
      cases op with
      | endOp =>
        simp only [librdf_run_ops, librdf_stream_end, hend, if_true] at h
        exact ih s s' outs h hend
      | nextOp =>
        simp only [librdf_run_ops, librdf_stream_next, hend, if_true] at h
        cases hrun : librdf_run_ops F rest s with
        | none => rw [hrun] at h; simp at h
        | some p =>
          obtain ⟨outs', s''⟩ := p
          rw [hrun] at h
          simp only [Option.some.injEq, Prod.mk.injEq] at h
          rw [← h.2]
          exact ih s s'' outs' hrun hend
      | setMapOp m mc =>
        simp only [librdf_run_ops] at h
        exact ih _ s' outs h (by simpa [librdf_stream_set_map] using hend)
  · intro s
    cases s.next <;> simp

/-- A concrete already-ended stream over a list producer, used to witness
the sticky-flag claim. -/
def endedStreamExample : LibrdfStream (List Nat) Unit Nat :=
  { context := [5]
    end_of_stream := fun l => (l.isEmpty, l)
    next_statement := fun l => (l.head?, l.tail)
    finished := fun _ => ()
    map := none
    map_context := ()
    next := none
    is_end_stream := true }

/-- Witness for claim C2: running end then next on a concrete ended
stream leaves the flag set, and its slot holds at most one statement. -/
theorem stream_ended_flag_sticky_witness :
    endedStreamExample.is_end_stream = true
    ∧ endedStreamExample.next.toList.length ≤ 1 :=
  ⟨(stream_ended_flag_sticky_and_slot_bounded.1 2
      [StreamOp.endOp, StreamOp.nextOp] endedStreamExample endedStreamExample
      [none] rfl rfl),
   stream_ended_flag_sticky_and_slot_bounded.2 endedStreamExample⟩

/-- Claim C3: for a stream with a map installed and the ended flag
clear, `end` with a buffered lookahead statement returns false and
leaves the stream (in particular the producer context) untouched — and
since this holds for arbitrary callback functions, the producer is not
consulted; with an empty slot it runs the mapped-fetch loop and either
buffers the found statement and returns false, or, when the loop yields
nothing, leaves the slot empty, latches the ended flag, and returns
true. -/
theorem stream_end_with_map_behaviour {σ μ τ : Type} (F : Nat)
    (s : LibrdfStream σ μ τ) (m : μ → τ → Option τ)
    (hm : s.map = some m) (he : s.is_end_stream = false) :
    (∀ st, s.next = some st →
      librdf_stream_end F (some s) = some (false, some s))
    ∧ (s.next = none →
      ∀ r c', librdf_stream_get_next_mapped_statement s.end_of_stream
            s.next_statement m s.map_context F s.context = some (r, c') →
        (∀ y, r = some y →
          librdf_stream_end F (some s)
            = some (false, some { s with context := c', next := some y }))
        ∧ (r = none →
          librdf_stream_end F (some s)
            = some (true, some
              { s with context := c', next := none, is_end_stream := true }))) := by
  constructor
  · intro st hst
    simp [librdf_stream_end, hm, he, hst]
  · intro hn r c' hL
    constructor
    · intro y hy
      rw [hy] at hL
      simp [librdf_stream_end, hm, he, hn, hL]
    · intro hy
      rw [hy] at hL
      simp [librdf_stream_end, hm, he, hn, hL]

/-- A concrete not-ended mapped stream with a buffered lookahead
statement, used to witness the `end`-with-map claim. -/
def bufferedStreamExample : LibrdfStream (List Nat) Unit Nat :=
  { context := [3, 4]
    end_of_stream := fun l => (l.isEmpty, l)
    next_statement := fun l => (l.head?, l.tail)
    finished := fun _ => ()
    map := some (fun _ x => some (x + 1))
    map_context := ()
    next := some 9
    is_end_stream := false }

/-- Witness for claim C3: on a concrete mapped stream with a buffered
statement, `end` returns false and changes nothing. -/
theorem stream_end_with_map_witness :
    librdf_stream_end 4 (some bufferedStreamExample)
      = some (false, some bufferedStreamExample) :=
  (stream_end_with_map_behaviour 4 bufferedStreamExample
    (fun _ x => some (x + 1)) rfl rfl).1 9 rfl

/-- Claim C4 (amended): for every stream, with or without a map, over a
producer whose `end_test` is side-effect-free, if an `end` call returns
an answer then an immediately repeated `end` call (any fuel) returns the
same answer and leaves the stream — including the producer context —
exactly as it was, so the second call pulls no raw element and consumes
or skips nothing. -/
theorem stream_end_repeat_no_pull {σ μ τ : Type}
    (s s₁ : LibrdfStream σ μ τ) (b : Bool) (F F' : Nat)
    (hpure : ∀ c, (s.end_of_stream c).2 = c)
    (h : librdf_stream_end F (some s) = some (b, some s₁)) :
    librdf_stream_end F' (some s₁) = some (b, some s₁) := by
  cases hend : s.is_end_stream with
  | true =>
    rw [librdf_stream_end] at h
    simp only [hend, if_true] at h
    simp only [Option.some.injEq, Prod.mk.injEq] at h
    obtain ⟨hb, hs⟩ := h
    subst hs
    subst hb
    simp [librdf_stream_end, hend]
  | false =>
    cases hmap : s.map with
    | none =>
      rw [librdf_stream_end] at h
      simp only [hend, hmap, if_false, Bool.false_eq_true] at h
      simp only [Option.some.injEq, Prod.mk.injEq] at h
      obtain ⟨hb, hs⟩ := h
      rw [hpure] at hs
      subst hb
      cases hbv : (s.end_of_stream s.context).1 with
      | true =>
        rw [hbv] at hs
        rw [← hs]
        simp [librdf_stream_end, hbv]
      | false =>
        rw [hbv] at hs
        rw [← hs]
        simp [librdf_stream_end, hpure, hbv]
    | some m =>
      cases hnext : s.next with
      | some st =>
        rw [librdf_stream_end] at h
        simp only [hend, hmap, hnext, if_false, Bool.false_eq_true] at h
        simp only [Option.some.injEq, Prod.mk.injEq] at h
        obtain ⟨hb, hs⟩ := h
        rw [← hs, ← hb]
        simp [librdf_stream_end, hend, hmap, hnext]
      | none =>
        rw [librdf_stream_end] at h
        simp only [hend, hmap, hnext, if_false, Bool.false_eq_true] at h
        cases hL : librdf_stream_get_next_mapped_statement s.end_of_stream
            s.next_statement m s.map_context F s.context with
        | none => rw [hL] at h; simp at h
        | some p =>
          obtain ⟨r, c'⟩ := p
          rw [hL] at h
          simp only [Option.some.injEq, Prod.mk.injEq] at h
          obtain ⟨hb, hs⟩ := h
          cases hr : r with
          | none =>
            rw [hr] at hs hb
            rw [← hs, ← hb]
            simp [librdf_stream_end, Option.isNone]
          | some y =>
            rw [hr] at hs hb
            rw [← hs, ← hb]
            simp [librdf_stream_end, hend, hmap, Option.isNone]

/-- An instrumented producer context: the remaining elements together
with a counter of how many raw pulls (`next_statement` calls) have been
made. -/
def instrumentedNext : List Nat × Nat → Option Nat × (List Nat × Nat) :=
  fun p => (p.1.head?, (p.1.tail, p.2 + 1))

/-- The instrumented producer's end test: pure, no pull counted. -/
def instrumentedEnd : List Nat × Nat → Bool × (List Nat × Nat) :=
  fun p => (p.1.isEmpty, p)

/-- A mapped stream over the instrumented producer with elements
`[0, 1]` and a map that discards even statements. -/
def instrumentedStreamExample : LibrdfStream (List Nat × Nat) Unit Nat :=
  { context := ([0, 1], 0)
    end_of_stream := instrumentedEnd
    next_statement := instrumentedNext
    finished := fun _ => ()
    map := some (fun _ x => if x % 2 = 1 then some x else none)
    map_context := ()
    next := none
    is_end_stream := false }

/-- The state of the instrumented stream after one `end` call: the
producer was pulled twice (the map discarded 0, accepted 1), the
accepted statement is buffered. -/
def instrumentedStreamAfterEnd : LibrdfStream (List Nat × Nat) Unit Nat :=
  { instrumentedStreamExample with context := ([], 2), next := some 1 }

/-- Counterexample to claim C4 as stated: on a concrete stream whose map
discards the first producer element, calling `end` twice in a row
(without any intervening `next`) makes the pull counter go from 0 to 2,
so the two calls pull two raw elements from the producer in total, not
at most one.  (Both calls do return the same answer, and the second call
changes nothing.) -/
theorem stream_end_twice_pull_counterexample :
    instrumentedStreamExample.context.2 = 0
    ∧ librdf_stream_end 3 (some instrumentedStreamExample)
        = some (false, some instrumentedStreamAfterEnd)
    ∧ librdf_stream_end 3 (some instrumentedStreamAfterEnd)
        = some (false, some instrumentedStreamAfterEnd)
    ∧ instrumentedStreamAfterEnd.context.2 = 2
    ∧ ¬ (2 - 0 ≤ 1) := by
  refine ⟨rfl, rfl, rfl, rfl, by decide⟩

/-- Witness for claim C4 (amended): the repeated `end` call on the
concrete instrumented stream returns the same answer and the unchanged
state. -/
theorem stream_end_repeat_no_pull_witness :
    librdf_stream_end 7 (some instrumentedStreamAfterEnd)
      = some (false, some instrumentedStreamAfterEnd) :=
  stream_end_repeat_no_pull instrumentedStreamExample instrumentedStreamAfterEnd
    false 3 7 (fun c => rfl) rfl

/-- Claim C5: destroying any stream — no matter how much was consumed
before, i.e. for every reachable stream state — invokes the producer's
`finished` callback exactly once, releases the buffered lookahead
statement exactly when one is present, and then releases the stream
itself. -/
theorem free_stream_finalizes_once {σ μ τ : Type} (s : LibrdfStream σ μ τ) :
    (librdf_free_stream s).countP FreeAction.isFinishedCall = 1
    ∧ (∀ st, s.next = some st →
        librdf_free_stream s
          = [FreeAction.callFinished s.context, FreeAction.freeStatement st,
             FreeAction.freeStreamSelf])
    ∧ (s.next = none →
        librdf_free_stream s
          = [FreeAction.callFinished s.context, FreeAction.freeStreamSelf]) := by
  refine ⟨?_, ?_, ?_⟩
  · cases hn : s.next with
    | none => simp [librdf_free_stream, hn, List.countP, List.countP.go,
        FreeAction.isFinishedCall]
    | some st => simp [librdf_free_stream, hn, List.countP, List.countP.go,
        FreeAction.isFinishedCall]
  · intro st hn
    simp [librdf_free_stream, hn]
  · intro hn
    simp [librdf_free_stream, hn]

/-- Witness for claim C5: destroying a concrete stream holding a
buffered statement performs exactly one `finished` call and frees the
statement. -/
theorem free_stream_finalizes_once_witness :
    (librdf_free_stream bufferedStreamExample).countP FreeAction.isFinishedCall = 1
    ∧ librdf_free_stream bufferedStreamExample
      = [FreeAction.callFinished [3, 4], FreeAction.freeStatement 9,
         FreeAction.freeStreamSelf] :=
  ⟨(free_stream_finalizes_once bufferedStreamExample).1,
   (free_stream_finalizes_once bufferedStreamExample).2.1 9 rfl⟩

/-- Claim C9: `librdf_stream_end` guards against a NULL stream and
reports end-of-stream (true) on it; `librdf_stream_next` and
`librdf_free_stream` have no such guard — in this embedding they take
the stream itself (they dereference it unconditionally), while `end`
takes an optional stream and answers `true` for `none`. -/
theorem stream_end_null_is_true (σ μ τ : Type) (F : Nat) :
    librdf_stream_end F (none : Option (LibrdfStream σ μ τ)) = some (true, none) :=
  rfl

/-- Claim C10: `set_map` writes only the map-function and map-context
fields; the producer context, the three producer callbacks, the
lookahead slot and the ended flag are untouched — for every stream
state, including one that already has a map installed and a statement
buffered. -/
theorem set_map_writes_only_map_fields {σ μ τ : Type}
    (s : LibrdfStream σ μ τ) (m : Option (μ → τ → Option τ)) (mc : μ) :
    (librdf_stream_set_map s m mc).context = s.context
    ∧ (librdf_stream_set_map s m mc).end_of_stream = s.end_of_stream
    ∧ (librdf_stream_set_map s m mc).next_statement = s.next_statement
    ∧ (librdf_stream_set_map s m mc).finished = s.finished
    ∧ (librdf_stream_set_map s m mc).next = s.next
    ∧ (librdf_stream_set_map s m mc).is_end_stream = s.is_end_stream
    ∧ (librdf_stream_set_map s m mc).map = m
    ∧ (librdf_stream_set_map s m mc).map_context = mc :=
  ⟨rfl, rfl, rfl, rfl, rfl, rfl, rfl, rfl⟩

/-!
Adapter theorems.
-/

theorem adapterDrain_valid_field {ν : Type} (f : Nat)
    (hf : f = LIBRDF_STATEMENT_SUBJECT ∨ f = LIBRDF_STATEMENT_PREDICATE
      ∨ f = LIBRDF_STATEMENT_OBJECT)
    (proto : librdf_statement ν) :
    ∀ ns : List ν,
      adapterDrain (fun st => some st)
          { iterator := ns, statement := proto, field := f } ns.length
        = ns.map (fun n =>
            AdapterStep.ret (some (statementWithField f proto n)) []) := by
  intro ns
  induction ns with
  | nil => rfl
  | cons n rest ih =>
    have hstep : librdf_stream_from_node_iterator_next_statement
        (fun st => some st)
        { iterator := n :: rest, statement := proto, field := f }
      = (AdapterStep.ret (some (statementWithField f proto n)) [],
         { iterator := rest, statement := proto, field := f }) := by
      rcases hf with h | h | h <;>
        simp [librdf_stream_from_node_iterator_next_statement,
          librdf_iterator_get_next, statementWithField, h,
          LIBRDF_STATEMENT_SUBJECT, LIBRDF_STATEMENT_PREDICATE,
          LIBRDF_STATEMENT_OBJECT]
    simp [adapterDrain, hstep, ih]

/-- Claim C6: over any node sequence and any prototype with the
designated field unset, driving the adapter's next operation (with the
external clone succeeding, as an independent value copy) yields one
statement per node, in sequence order, each a clone of the prototype
whose designated field is set to the corresponding node and whose other
two fields equal the prototype's; stated for each of the three legal
field selectors. -/
theorem adapter_yields_prototype_clones {ν : Type} (ns : List ν)
    (proto : librdf_statement ν) :
    (proto.subject = none →
      adapterDrain (fun st => some st)
          (librdf_new_stream_from_node_iterator ns proto
            LIBRDF_STATEMENT_SUBJECT) ns.length
        = ns.map (fun n =>
            AdapterStep.ret (some (librdf_statement_set_subject proto n)) [])
      ∧ ∀ n : ν, (librdf_statement_set_subject proto n).subject = some n
        ∧ (librdf_statement_set_subject proto n).predicate = proto.predicate
        ∧ (librdf_statement_set_subject proto n).object = proto.object)
    ∧ (proto.predicate = none →
      adapterDrain (fun st => some st)
          (librdf_new_stream_from_node_iterator ns proto
            LIBRDF_STATEMENT_PREDICATE) ns.length
        = ns.map (fun n =>
            AdapterStep.ret (some (librdf_statement_set_predicate proto n)) [])
      ∧ ∀ n : ν, (librdf_statement_set_predicate proto n).predicate = some n
        ∧ (librdf_statement_set_predicate proto n).subject = proto.subject
        ∧ (librdf_statement_set_predicate proto n).object = proto.object)
    ∧ (proto.object = none →
      adapterDrain (fun st => some st)
          (librdf_new_stream_from_node_iterator ns proto
            LIBRDF_STATEMENT_OBJECT) ns.length
        = ns.map (fun n =>
            AdapterStep.ret (some (librdf_statement_set_object proto n)) [])
      ∧ ∀ n : ν, (librdf_statement_set_object proto n).object = some n
        ∧ (librdf_statement_set_object proto n).subject = proto.subject
        ∧ (librdf_statement_set_object proto n).predicate = proto.predicate) := by
  refine ⟨?_, ?_, ?_⟩
  · intro hunset
    refine ⟨?_, fun n => ⟨rfl, rfl, rfl⟩⟩
    have h := adapterDrain_valid_field LIBRDF_STATEMENT_SUBJECT (Or.inl rfl)
      proto ns
    simpa [statementWithField, LIBRDF_STATEMENT_SUBJECT,
      LIBRDF_STATEMENT_PREDICATE, LIBRDF_STATEMENT_OBJECT,
      librdf_new_stream_from_node_iterator] using h
  · intro hunset
    refine ⟨?_, fun n => ⟨rfl, rfl, rfl⟩⟩
    have h := adapterDrain_valid_field LIBRDF_STATEMENT_PREDICATE
      (Or.inr (Or.inl rfl)) proto ns
    simpa [statementWithField, LIBRDF_STATEMENT_SUBJECT,
      LIBRDF_STATEMENT_PREDICATE, LIBRDF_STATEMENT_OBJECT,
      librdf_new_stream_from_node_iterator] using h
  · intro hunset
    refine ⟨?_, fun n => ⟨rfl, rfl, rfl⟩⟩
    have h := adapterDrain_valid_field LIBRDF_STATEMENT_OBJECT
      (Or.inr (Or.inr rfl)) proto ns
    simpa [statementWithField, LIBRDF_STATEMENT_SUBJECT,
      LIBRDF_STATEMENT_PREDICATE, LIBRDF_STATEMENT_OBJECT,
      librdf_new_stream_from_node_iterator] using h

/-- A concrete prototype statement with an unset subject, used by the
adapter witnesses. -/
def protoExample : librdf_statement Nat :=
  { subject := none, predicate := some 7, object := some 8 }

/-- Witness for claim C6: nodes `[1, 2]` with the subject selector give
two subject-substituted copies of the prototype, in order. -/
theorem adapter_yields_prototype_clones_witness :
    adapterDrain (fun st => some st)
        (librdf_new_stream_from_node_iterator [1, 2] protoExample
          LIBRDF_STATEMENT_SUBJECT) 2
      = [AdapterStep.ret
           (some { subject := some 1, predicate := some 7, object := some 8 }) [],
         AdapterStep.ret
           (some { subject := some 2, predicate := some 7, object := some 8 }) []] := by
  have h := ((adapter_yields_prototype_clones [1, 2] protoExample).1 rfl).1
  simpa [protoExample, librdf_statement_set_subject] using h

/-- Counterexample to claim C7 as stated: with the illegal field
selector 7 and an empty node sequence, construction succeeds without any
error, yet the first invocation of the adapter's next operation returns
exhaustion (the iterator has no node to pull) and does not take the
fatal path. -/
theorem adapter_invalid_field_counterexample :
    librdf_new_stream_from_node_iterator ([] : List Nat) protoExample 7
      = { iterator := [], statement := protoExample, field := 7 }
    ∧ (librdf_stream_from_node_iterator_next_statement (fun st => some st)
        (librdf_new_stream_from_node_iterator ([] : List Nat)
          protoExample 7)).1
      = AdapterStep.ret none []
    ∧ ((librdf_stream_from_node_iterator_next_statement (fun st => some st)
        (librdf_new_stream_from_node_iterator ([] : List Nat)
          protoExample 7)).1).isFatal = false :=
  ⟨rfl, rfl, rfl⟩

/-- Claim C7 (amended): constructing the adapter performs no validation
of the field selector and succeeds for every selector; for every
selector outside subject/predicate/object, the fatal abort is taken on
the first next invocation that pulls a node and clones the prototype
successfully (with an empty node sequence, or on clone failure, the call
returns exhaustion before reaching the switch); for the three legal
selectors the fatal branch is unreachable on every context and every
clone. -/
theorem adapter_invalid_field_fatal_on_first_pull {ν : Type} :
    (∀ (it : List ν) (proto : librdf_statement ν) (f : Nat),
      librdf_new_stream_from_node_iterator it proto f
        = { iterator := it, statement := proto, field := f })
    ∧ (∀ f : Nat,
        ¬ (f = LIBRDF_STATEMENT_SUBJECT ∨ f = LIBRDF_STATEMENT_PREDICATE
            ∨ f = LIBRDF_STATEMENT_OBJECT) →
        ∀ (n : ν) (ns : List ν) (proto st' : librdf_statement ν)
          (clone : librdf_statement ν → Option (librdf_statement ν)),
          clone proto = some st' →
          (librdf_stream_from_node_iterator_next_statement clone
            { iterator := n :: ns, statement := proto, field := f }).1
            = AdapterStep.fatal f)
    ∧ (∀ f : Nat,
        (f = LIBRDF_STATEMENT_SUBJECT ∨ f = LIBRDF_STATEMENT_PREDICATE
          ∨ f = LIBRDF_STATEMENT_OBJECT) →
        ∀ (scontext : librdf_stream_from_node_iterator_stream_context ν)
          (clone : librdf_statement ν → Option (librdf_statement ν)),
          scontext.field = f →
          ((librdf_stream_from_node_iterator_next_statement clone
            scontext).1).isFatal = false) := by
  refine ⟨fun it proto f => rfl, ?_, ?_⟩
  · intro f hf n ns proto st' clone hclone
    push_neg at hf
    simp [librdf_stream_from_node_iterator_next_statement,
      librdf_iterator_get_next, hclone, hf.1, hf.2.1, hf.2.2]
  · intro f hf scontext clone hfield
    obtain ⟨it, proto, fld⟩ := scontext
    cases hfield
    cases it with
    | nil =>
      simp [librdf_stream_from_node_iterator_next_statement,
        librdf_iterator_get_next, AdapterStep.isFatal]
    | cons n rest =>
      cases hclone : clone proto with
      | none =>
        simp [librdf_stream_from_node_iterator_next_statement,
          librdf_iterator_get_next, hclone, AdapterStep.isFatal]
      | some st =>
        replace hf : fld = 0 ∨ fld = 1 ∨ fld = 2 := hf
        rcases hf with h | h | h <;> subst h <;>
          simp [librdf_stream_from_node_iterator_next_statement,
            librdf_iterator_get_next, hclone, AdapterStep.isFatal,
            LIBRDF_STATEMENT_SUBJECT, LIBRDF_STATEMENT_PREDICATE,
            LIBRDF_STATEMENT_OBJECT]

/-- Witness for claim C7 (amended): selector 7 with a node available and
a successful clone aborts on the first next invocation, and the
subject selector never takes the fatal branch on a concrete context. -/
theorem adapter_invalid_field_fatal_witness :
    (librdf_stream_from_node_iterator_next_statement (fun st => some st)
        { iterator := [3], statement := protoExample, field := 7 }).1
      = AdapterStep.fatal 7
    ∧ ((librdf_stream_from_node_iterator_next_statement (fun st => some st)
        { iterator := [3], statement := protoExample,
          field := LIBRDF_STATEMENT_SUBJECT }).1).isFatal = false :=
  ⟨adapter_invalid_field_fatal_on_first_pull.2.1 7 (by decide) 3 []
     protoExample protoExample (fun st => some st) rfl,
   adapter_invalid_field_fatal_on_first_pull.2.2 LIBRDF_STATEMENT_SUBJECT
     (Or.inl rfl)
     { iterator := [3], statement := protoExample,
       field := LIBRDF_STATEMENT_SUBJECT }
     (fun st => some st) rfl⟩

/-- Claim C8: when the external clone of the prototype fails after a
node has been pulled, the adapter's next operation releases the pulled
node and returns an absent statement (reporting exhaustion), for every
field selector — it neither aborts nor signals a distinct error. -/
theorem adapter_clone_failure_treated_as_exhaustion {ν : Type}
    (n : ν) (ns : List ν) (proto : librdf_statement ν) (f : Nat)
    (clone : librdf_statement ν → Option (librdf_statement ν))
    (hclone : clone proto = none) :
    librdf_stream_from_node_iterator_next_statement clone
        { iterator := n :: ns, statement := proto, field := f }
      = (AdapterStep.ret none [n],
         { iterator := ns, statement := proto, field := f }) := by
  simp [librdf_stream_from_node_iterator_next_statement,
    librdf_iterator_get_next, hclone]

/-- Witness for claim C8: a concrete failing clone makes the adapter
release the pulled node 4 and report exhaustion. -/
theorem adapter_clone_failure_witness :
    librdf_stream_from_node_iterator_next_statement
        (fun _ => (none : Option (librdf_statement Nat)))
        { iterator := [4, 5], statement := protoExample,
          field := LIBRDF_STATEMENT_SUBJECT }
      = (AdapterStep.ret none [4],
         { iterator := [5], statement := protoExample,
           field := LIBRDF_STATEMENT_SUBJECT }) :=
  adapter_clone_failure_treated_as_exhaustion 4 [5] protoExample
    LIBRDF_STATEMENT_SUBJECT (fun _ => none) rfl
